import Mathlib

/-!
Verification of the authorization-scoped resource access layer of the
recipe-app-api repository, shallowly embedded from `app/recipe/views.py`
and `app/recipe/urls.py`.  Parts of the repository that the views consume
but that are not part of the access layer source (the Django model layer
with its default ordering and the serializers) are modelled from the specification
and are marked as such in their doc comments.
-/

namespace RecipeApp

/-- A tag row: `core.models.Tag` has an id, a name and an owning user
(spec section 3).  Users are identified by their numeric id. -/
structure Tag where
  id : Nat
  name : String
  user : Nat
deriving DecidableEq, Repr

/-- An ingredient row: `core.models.Ingredient` has an id, a name and an
owning user (spec section 3). -/
structure Ingredient where
  id : Nat
  name : String
  user : Nat
deriving DecidableEq, Repr

/-- A recipe row: `core.models.Recipe` (spec section 3).  `price` is the
decimal price scaled to an integer number of cents; `tags` and
`ingredients` hold the ids of the related rows of the many-to-many sets. -/
structure Recipe where
  id : Nat
  user : Nat
  title : String
  time_minutes : Nat
  price : Nat
  link : Option String
  image : Option String
  tags : List Nat
  ingredients : List Nat
deriving DecidableEq, Repr

/-- The relational store: the rows of the three resource tables. -/
structure Db where
  tags : List Tag
  ingredients : List Ingredient
  recipes : List Recipe
deriving DecidableEq, Repr

/-! ### Sorting

The Django `order_by` call is embedded as an insertion sort by a boolean
relation.  The two lemmas proved below are the ones the claims need:
the sorted list has exactly the members of its input, and it is pairwise
ordered by the relation whenever the relation is total and transitive. -/

/-- Insert `x` into `l` before the first element `y` with `r x y`. -/
def orderedInsert (r : α → α → Bool) (x : α) : List α → List α
  | [] => [x]
  | y :: ys => if r x y then x :: y :: ys else y :: orderedInsert r x ys

/-- Insertion sort by the boolean relation `r`; embeds `order_by`. -/
def orderBy (r : α → α → Bool) : List α → List α
  | [] => []
  | x :: xs => orderedInsert r x (orderBy r xs)

theorem mem_orderedInsert (r : α → α → Bool) (x a : α) (l : List α) :
    a ∈ orderedInsert r x l ↔ a = x ∨ a ∈ l := by
  induction l with
  | nil => simp [orderedInsert]
  | cons y ys ih =>
    by_cases h : r x y
    · simp [orderedInsert, h]
    · simp [orderedInsert, h, ih]
      tauto

theorem mem_orderBy (r : α → α → Bool) (a : α) (l : List α) :
    a ∈ orderBy r l ↔ a ∈ l := by
  induction l with
  | nil => simp [orderBy]
  | cons x xs ih => simp [orderBy, mem_orderedInsert, ih]

theorem pairwise_orderedInsert (r : α → α → Bool)
    (total : ∀ a b, r a b = true ∨ r b a = true)
    (trans : ∀ a b c, r a b = true → r b c = true → r a c = true)
    (x : α) (l : List α) (hl : l.Pairwise (fun a b => r a b = true)) :
    (orderedInsert r x l).Pairwise (fun a b => r a b = true) := by
  induction l with
  | nil => simp [orderedInsert]
  | cons y ys ih =>
    rcases List.pairwise_cons.mp hl with ⟨hy, hys⟩
    by_cases h : r x y
    · simp only [orderedInsert, h, if_true]
      refine List.pairwise_cons.mpr ⟨?_, List.pairwise_cons.mpr ⟨hy, hys⟩⟩
      intro z hz
      rcases List.mem_cons.mp hz with hz | hz
      · subst hz
        exact h
      · exact trans x y z h (hy z hz)
    · simp only [orderedInsert, h, if_false]
      refine List.pairwise_cons.mpr ⟨?_, ih hys⟩
      intro z hz
      rcases (mem_orderedInsert r x z ys).mp hz with hz | hz
      · subst hz
        rcases total z y with hzy | hyz
        · exact absurd hzy h
        · exact hyz
      · exact hy z hz

theorem pairwise_orderBy (r : α → α → Bool)
    (total : ∀ a b, r a b = true ∨ r b a = true)
    (trans : ∀ a b c, r a b = true → r b c = true → r a c = true)
    (l : List α) :
    (orderBy r l).Pairwise (fun a b => r a b = true) := by
  induction l with
  | nil => simp [orderBy]
  | cons x xs ih => exact pairwise_orderedInsert r total trans x _ ih

/-! ### The name collation

`order_by` on a text column compares strings; the comparison is embedded
as the executable lexicographic order on the character codes, and proved
below to agree with the standard order `≤` on `String`. -/

/-- Lexicographic comparison of character lists. -/
def lexLe : List Char → List Char → Bool
  | [], _ => true
  | _ :: _, [] => false
  | a :: as, b :: bs =>
    if a < b then true
    else if b < a then false
    else lexLe as bs

/-- Executable string comparison used to embed `order_by` on names. -/
def strLe (a b : String) : Bool := lexLe a.data b.data

theorem lexLe_total : ∀ x y : List Char, lexLe x y = true ∨ lexLe y x = true := by
  intro x
  induction x with
  | nil => intro y; left; rfl
  | cons a as ih =>
    intro y
    cases y with
    | nil => right; rfl
    | cons b bs =>
      rcases lt_trichotomy a b with h | h | h
      · left; simp [lexLe, h]
      · subst h
        have h1 : ¬ a < a := lt_irrefl a
        rcases ih bs with hab | hba
        · left; simp [lexLe, h1, hab]
        · right; simp [lexLe, h1, hba]
      · right; simp [lexLe, h]

theorem lexLe_trans :
    ∀ x y z : List Char, lexLe x y = true → lexLe y z = true →
      lexLe x z = true := by
  intro x
  induction x with
  | nil => intro y z _ _; rfl
  | cons a as ih =>
    intro y z hxy hyz
    cases y with
    | nil => simp [lexLe] at hxy
    | cons b bs =>
      cases z with
      | nil => simp [lexLe] at hyz
      | cons c cs =>
        by_cases hab : a < b
        · by_cases hbc : b < c
          · have : a < c := lt_trans hab hbc
            simp [lexLe, this]
          · by_cases hcb : c < b
            · simp [lexLe, hbc, hcb] at hyz
            · have hbc2 : b = c := le_antisymm (le_of_not_lt hcb) (le_of_not_lt hbc)
              subst hbc2
              simp [lexLe, hab]
        · by_cases hba : b < a
          · simp [lexLe, hab, hba] at hxy
          · have hab2 : a = b := le_antisymm (le_of_not_lt hba) (le_of_not_lt hab)
            subst hab2
            simp only [lexLe, if_neg hab, if_neg hba] at hxy
            by_cases hbc : a < c
            · simp [lexLe, hbc]
            · by_cases hcb : c < a
              · simp [lexLe, hbc, hcb] at hyz
              · simp only [lexLe, if_neg hbc, if_neg hcb] at hyz ⊢
                exact ih bs cs hxy hyz

theorem lexLe_iff_not_lt :
    ∀ x y : List Char, lexLe x y = true ↔ ¬ y < x := by
  intro x
  induction x with
  | nil =>
    intro y
    constructor
    · intro _ h
      cases h
    · intro _
      rfl
  | cons a as ih =>
    intro y
    cases y with
    | nil =>
      simp only [lexLe]
      constructor
      · intro h
        cases h
      · intro h
        exact absurd (List.nil_lt_cons a as) h
    | cons b bs =>
      rcases lt_trichotomy a b with h | h | h
      · have hn : ¬ (b :: bs) < (a :: as) := by
          intro hlt
          cases hlt with
          | cons h1 => exact lt_irrefl a h
          | rel h1 => exact lt_asymm h h1
        simp only [lexLe, if_pos h]
        exact iff_of_true trivial hn
      · subst h
        have h1 : ¬ a < a := lt_irrefl a
        simp only [lexLe, if_neg h1]
        rw [ih bs]
        exact (not_congr List.Lex.cons_iff).symm
      · have h1 : ¬ a < b := lt_asymm h
        simp only [lexLe, if_neg h1, if_pos h]
        exact iff_of_false Bool.false_ne_true
          (not_not_intro (List.Lex.rel h))

theorem strLe_iff_le (a b : String) : strLe a b = true ↔ a ≤ b := by
  rw [strLe, lexLe_iff_not_lt]
  have h : b.data < a.data ↔ b < a := by
    rw [String.lt_iff_toList_lt]
    exact Iff.rfl
  rw [h]
  exact not_lt

/-! ### Querysets (views.py `get_queryset`) -/

/-- `views.py` lines 18-23, `BaseRecipeAttrViewSet.get_queryset` as used by
`TagViewSet`: filter the tag table to the rows of the authenticated user and
order by name descending.  The method never reads the query
parameters, so the `assignedOnly` argument carried by the request is
ignored. -/
def tag_get_queryset (u : Nat) (assignedOnly : Bool) (db : Db) : List Tag :=
  orderBy (fun a b => strLe b.name a.name)
    (db.tags.filter (fun t => t.user == u))

/-- `views.py` lines 18-23, `BaseRecipeAttrViewSet.get_queryset` as used by
`IngredientViewSet`: filter the ingredient table to the rows of the
authenticated user and order by name descending.  The method never reads
the query parameters, so the `assignedOnly` argument carried by the
request is ignored. -/
def ingredient_get_queryset (u : Nat) (assignedOnly : Bool) (db : Db) :
    List Ingredient :=
  orderBy (fun a b => strLe b.name a.name)
    (db.ingredients.filter (fun i => i.user == u))

/-- Modelled from the spec: `core/models.py` (the `Recipe` model and its
default manager ordering) is not under `src/`; the spec fixes the default
list ordering of recipes as identifier descending (section 4.2). -/
def recipeDefaultOrder (l : List Recipe) : List Recipe :=
  orderBy (fun a b => decide (b.id ≤ a.id)) l

/-- `views.py` lines 51-53, `RecipeViewset.get_queryset`: restrict the
recipe table to the rows of the authenticated user; the ordering is the model
default (`recipeDefaultOrder`). -/
def recipe_get_queryset (u : Nat) (db : Db) : List Recipe :=
  recipeDefaultOrder (db.recipes.filter (fun r => r.user == u))

/-- The DRF `get_object` resolution for the recipe detail routes: look the primary key
up inside `get_queryset`, so a recipe owned by someone else is as absent
as a nonexistent id (`none` means the 404 response). -/
def recipe_get_object (u pk : Nat) (db : Db) : Option Recipe :=
  (recipe_get_queryset u db).find? (fun r => r.id == pk)

/-! ### Create (views.py `perform_create`) -/

/-- Payload of a tag/ingredient create request: a name, plus whatever
owner field the caller chose to send. -/
structure AttrPayload where
  name : String
  owner : Option Nat
deriving DecidableEq, Repr

/-- Payload of a recipe create request. -/
structure RecipeCreatePayload where
  title : String
  time_minutes : Nat
  price : Nat
  link : Option String
  tags : List Nat
  ingredients : List Nat
  owner : Option Nat
deriving DecidableEq, Repr

/-- Next free id of a table, used when a create inserts a row. -/
def nextId (ids : List Nat) : Nat := ids.foldr max 0 + 1

/-- `views.py` lines 25-27, `BaseRecipeAttrViewSet.perform_create` for
tags: `serializer.save(user=self.request.user)` stores the row with the
authenticated user as owner, overriding any owner field of the payload.
Validation is modelled from the spec: a blank name is invalid (section
4.2 create) and nothing is stored. -/
def tag_create (u : Nat) (p : AttrPayload) (db : Db) : Option (Db × Tag) :=
  if p.name = "" then none
  else
    let t : Tag := { id := nextId (db.tags.map Tag.id), name := p.name, user := u }
    some ({ db with tags := db.tags ++ [t] }, t)

/-- `views.py` lines 25-27, `BaseRecipeAttrViewSet.perform_create` for
ingredients: identical to `tag_create` on the ingredient table. -/
def ingredient_create (u : Nat) (p : AttrPayload) (db : Db) :
    Option (Db × Ingredient) :=
  if p.name = "" then none
  else
    let i : Ingredient :=
      { id := nextId (db.ingredients.map Ingredient.id), name := p.name, user := u }
    some ({ db with ingredients := db.ingredients ++ [i] }, i)

/-- `views.py` lines 63-65, `RecipeViewset.perform_create`:
`serializer.save(user=self.request.user)` stores the recipe with the
authenticated user as owner, overriding any owner field of the payload.
Validation is modelled from the spec: a blank title is invalid and
nothing is stored. -/
def recipe_create (u : Nat) (p : RecipeCreatePayload) (db : Db) :
    Option (Db × Recipe) :=
  if p.title = "" then none
  else
    let r : Recipe :=
      { id := nextId (db.recipes.map Recipe.id), user := u, title := p.title
        time_minutes := p.time_minutes, price := p.price, link := p.link
        image := none, tags := p.tags, ingredients := p.ingredients }
    some ({ db with recipes := db.recipes ++ [r] }, r)

/-! ### Update (PUT / PATCH on a recipe) -/

/-- Payload of a recipe update request; `none` means the field is absent
from the payload. -/
structure RecipeUpdatePayload where
  title : Option String
  time_minutes : Option Nat
  price : Option Nat
  link : Option String
  tags : Option (List Nat)
  ingredients : Option (List Nat)
deriving DecidableEq, Repr

/-- Modelled from the spec: `recipe/serializers.py` is not under `src/`.
Spec section 4.2 update: a full replace (`patch = false`) resets
unspecified relationship fields (tags, ingredients) to empty, while a
partial update (`patch = true`) only changes supplied fields; scalar
fields are replaced exactly when supplied. -/
def recipe_update_fields (patch : Bool) (p : RecipeUpdatePayload)
    (r : Recipe) : Recipe :=
  { r with
    title := p.title.getD r.title
    time_minutes := p.time_minutes.getD r.time_minutes
    price := p.price.getD r.price
    link := match p.link with | some l => some l | none => r.link
    tags := match p.tags with
      | some ts => ts
      | none => if patch then r.tags else []
    ingredients := match p.ingredients with
      | some is => is
      | none => if patch then r.ingredients else [] }

/-- The PUT/PATCH endpoint on `/recipe/recipes/:id`: DRF resolves the
object through `RecipeViewset.get_queryset` (views.py lines 51-53), so a
recipe not owned by `u` yields the 404 result `none` with the store
untouched; otherwise the row is replaced by the updated one. -/
def recipe_update (u pk : Nat) (patch : Bool) (p : RecipeUpdatePayload)
    (db : Db) : Db × Option Recipe :=
  match recipe_get_object u pk db with
  | none => (db, none)
  | some r =>
    let r2 := recipe_update_fields patch p r
    ({ db with
        recipes := db.recipes.map
          (fun x => if x.id == pk && x.user == u then r2 else x) },
      some r2)

/-! ### Image upload and delete -/

/-- An uploaded file: a storage name and raw bytes. -/
structure UploadFile where
  name : String
  bytes : List Nat
deriving DecidableEq, Repr

/-- HTTP status of a detail-route response. -/
inductive HStatus where
  | ok200
  | noContent204
  | badRequest400
  | notFound404
deriving DecidableEq, Repr

/-- `views.py` lines 67-86, `RecipeViewset.upload_image`: `get_object`
resolves the recipe inside the owner-scoped queryset (404 when absent);
the image serializer accepts the file exactly when it is a decodable
image — decodability is the external codec capability the spec excludes
from the core (section 1), passed here as the `decode` parameter.  On a
valid file the serializer save replaces the image of the recipe and the view
answers 200 with the serialized recipe; otherwise it answers 400 and the
store is untouched. -/
def upload_image (decode : UploadFile → Bool) (u pk : Nat) (f : UploadFile)
    (db : Db) : Db × HStatus × Option Recipe :=
  match recipe_get_object u pk db with
  | none => (db, HStatus.notFound404, none)
  | some r =>
    if decode f then
      let r2 := { r with image := some f.name }
      ({ db with
          recipes := db.recipes.map
            (fun x => if x.id == pk && x.user == u then r2 else x) },
        HStatus.ok200, some r2)
    else (db, HStatus.badRequest400, none)

/-- The DELETE endpoint on `/recipe/recipes/:id` (the destroy action of `ModelViewSet`): resolve the object inside the owner-scoped queryset, 404 when
absent, otherwise delete the row.  The recipe row itself holds its
many-to-many links, so deleting it removes the links while the tag and
ingredient tables are untouched. -/
def recipe_destroy (u pk : Nat) (db : Db) : Db × HStatus :=
  match recipe_get_object u pk db with
  | none => (db, HStatus.notFound404)
  | some _ =>
    ({ db with
        recipes := db.recipes.filter
          (fun x => !(x.id == pk && x.user == u)) },
      HStatus.noContent204)

/-! ### Serializers and viewset actions -/

/-- The serialized form of a tag (`TagSerializer`: id and name; the owner
is never exposed — modelled from the spec, `recipe/serializers.py` is not
under `src/`). -/
structure TagRepr where
  id : Nat
  name : String
deriving DecidableEq, Repr

/-- The serialized form of an ingredient (`IngredientSerializer`). -/
structure IngredientRepr where
  id : Nat
  name : String
deriving DecidableEq, Repr

/-- Modelled from the spec: the plain `RecipeSerializer` used by the list
route and by PUT/PATCH shows `tags` and `ingredients` as bare id lists
(spec section 6 and `test_recipe_api.py` line 195). -/
structure RecipeListRepr where
  id : Nat
  title : String
  time_minutes : Nat
  price : Nat
  link : Option String
  image : Option String
  tags : List Nat
  ingredients : List Nat
deriving DecidableEq, Repr

/-- Modelled from the spec: the `RecipeDetailSerializer` nests full tag
and ingredient objects (spec section 6 table). -/
structure RecipeDetailRepr where
  id : Nat
  title : String
  time_minutes : Nat
  price : Nat
  link : Option String
  image : Option String
  tags : List TagRepr
  ingredients : List IngredientRepr
deriving DecidableEq, Repr

def serializeTag (t : Tag) : TagRepr := { id := t.id, name := t.name }

def serializeIngredient (i : Ingredient) : IngredientRepr :=
  { id := i.id, name := i.name }

def serializeRecipe (r : Recipe) : RecipeListRepr :=
  { id := r.id, title := r.title, time_minutes := r.time_minutes
    price := r.price, link := r.link, image := r.image
    tags := r.tags, ingredients := r.ingredients }

/-- Modelled from the spec: the detail representation resolves each
referenced tag/ingredient id against the store and nests the full
object.  The references are not re-verified to belong to the owner of the
recipe (spec section 9, design note on the observed behavior). -/
def serializeRecipeDetail (db : Db) (r : Recipe) : RecipeDetailRepr :=
  { id := r.id, title := r.title, time_minutes := r.time_minutes
    price := r.price, link := r.link, image := r.image
    tags := r.tags.filterMap
      (fun i => (db.tags.find? (fun t => t.id == i)).map serializeTag)
    ingredients := r.ingredients.filterMap
      (fun j =>
        (db.ingredients.find? (fun i => i.id == j)).map serializeIngredient) }

/-- The actions a DRF viewset can expose.  DRF names the PATCH action
`partial_update`; it is `RAction.patch` here, and PUT is
`RAction.update`. -/
inductive RAction where
  | list
  | create
  | retrieve
  | update
  | patch
  | destroy
  | uploadImage
deriving DecidableEq, Repr

/-- `views.py` lines 11-13: `BaseRecipeAttrViewSet` is a `GenericViewSet`
with only `ListModelMixin` and `CreateModelMixin`, so only the list and
create actions exist; the router binds no detail route for it. -/
def baseRecipeAttrActions : List RAction := [RAction.list, RAction.create]

/-- `views.py` line 30 and `urls.py` line 7: `TagViewSet` inherits
`BaseRecipeAttrViewSet` unchanged. -/
def tagViewSetActions : List RAction := baseRecipeAttrActions

/-- `views.py` line 37 and `urls.py` line 8: `IngredientViewSet` inherits
`BaseRecipeAttrViewSet` unchanged. -/
def ingredientViewSetActions : List RAction := baseRecipeAttrActions

/-- `views.py` lines 44 and 67 and `urls.py` line 9: `RecipeViewset` is a
`ModelViewSet` (every CRUD action) plus the `upload_image` extra
action. -/
def recipeViewSetActions : List RAction :=
  [RAction.list, RAction.create, RAction.retrieve, RAction.update,
   RAction.patch, RAction.destroy, RAction.uploadImage]

/-- Which serializer a recipe action uses. -/
inductive SerKind where
  | plain
  | detail
  | image
deriving DecidableEq, Repr

/-- `views.py` lines 55-61, `RecipeViewset.get_serializer_class`: the
detail serializer for `retrieve`, the image serializer for
`upload_image`, and the plain `RecipeSerializer` for everything else
(including PUT and PATCH). -/
def recipe_get_serializer_class (a : RAction) : SerKind :=
  match a with
  | RAction.retrieve => SerKind.detail
  | RAction.uploadImage => SerKind.image
  | _ => SerKind.plain

/-! ### Endpoint responses -/

/-- Response body of `GET /recipe/tags`. -/
def list_tags_resp (u : Nat) (assignedOnly : Bool) (db : Db) : List TagRepr :=
  (tag_get_queryset u assignedOnly db).map serializeTag

/-- Response body of `GET /recipe/ingredients`. -/
def list_ingredients_resp (u : Nat) (assignedOnly : Bool) (db : Db) :
    List IngredientRepr :=
  (ingredient_get_queryset u assignedOnly db).map serializeIngredient

/-- Response body of `GET /recipe/recipes` (plain serializer). -/
def list_recipes_resp (u : Nat) (db : Db) : List RecipeListRepr :=
  (recipe_get_queryset u db).map serializeRecipe

/-- Response body of `GET /recipe/recipes/:id` (detail serializer);
`none` is the 404 response. -/
def retrieve_recipe_resp (u pk : Nat) (db : Db) : Option RecipeDetailRepr :=
  (recipe_get_object u pk db).map (serializeRecipeDetail db)

/-! ### Queryset membership -/

theorem mem_tag_get_queryset (u : Nat) (ao : Bool) (db : Db) (t : Tag) :
    t ∈ tag_get_queryset u ao db ↔ t ∈ db.tags ∧ t.user = u := by
  simp [tag_get_queryset, mem_orderBy, List.mem_filter]

theorem mem_ingredient_get_queryset (u : Nat) (ao : Bool) (db : Db)
    (i : Ingredient) :
    i ∈ ingredient_get_queryset u ao db ↔ i ∈ db.ingredients ∧ i.user = u := by
  simp [ingredient_get_queryset, mem_orderBy, List.mem_filter]

theorem mem_recipe_get_queryset (u : Nat) (db : Db) (r : Recipe) :
    r ∈ recipe_get_queryset u db ↔ r ∈ db.recipes ∧ r.user = u := by
  simp [recipe_get_queryset, recipeDefaultOrder, mem_orderBy, List.mem_filter]

/-! ### The claims -/

/-- C1: for every authenticated identity and every resource kind (Tag,
Ingredient, Recipe), the list queryset returns exactly the rows whose
owner is that identity; no row owned by a different identity ever
appears in the result. -/
theorem c1_list_exactly_owned (u : Nat) (ao : Bool) (db : Db) :
    (∀ t : Tag, t ∈ tag_get_queryset u ao db ↔ t ∈ db.tags ∧ t.user = u) ∧
    (∀ i : Ingredient,
      i ∈ ingredient_get_queryset u ao db ↔ i ∈ db.ingredients ∧ i.user = u) ∧
    (∀ r : Recipe,
      r ∈ recipe_get_queryset u db ↔ r ∈ db.recipes ∧ r.user = u) :=
  ⟨fun t => mem_tag_get_queryset u ao db t,
   fun i => mem_ingredient_get_queryset u ao db i,
   fun r => mem_recipe_get_queryset u db r⟩

/-- The store of `test_retrieve_ingredient_assigned_unique`
(`test_ingredients_api.py` lines 107-127): one user owning the
ingredients turkey (attached to the two recipes) and bok choi
(attached to none). -/
def assignedOnlyDb : Db :=
  { tags := []
    ingredients := [⟨1, "turkey", 1⟩, ⟨2, "bok choi", 1⟩]
    recipes :=
      [⟨10, 1, "eggs benny", 3, 300, none, none, [], [1]⟩,
       ⟨11, 1, "turkey ham", 5, 666, none, none, [], [1]⟩] }

/-- C2: the tests of the repository itself (`test_ingredients_api.py` lines
84-127) require the `assigned_only` filter, but
`BaseRecipeAttrViewSet.get_queryset` (views.py lines 18-23) never reads
the query parameters of the request: on the store of
`test_retrieve_ingredient_assigned_unique` the list request with
`assigned_only = 1` returns both ingredients — the unassigned bok choi
included — where the test demands exactly one element. -/
theorem c2_assigned_only_filter_ignored :
    (ingredient_get_queryset 1 true assignedOnlyDb).length = 2 ∧
    (⟨2, "bok choi", 1⟩ : Ingredient) ∈
      ingredient_get_queryset 1 true assignedOnlyDb := by
  decide

/-- C3: creating a Tag, Ingredient or Recipe stores the authenticated
identity as the owner, whatever owner field the payload carries. -/
theorem c3_create_sets_owner :
    (∀ (u : Nat) (p : AttrPayload) (db : Db) (out : Db × Tag),
      tag_create u p db = some out → out.2.user = u) ∧
    (∀ (u : Nat) (p : AttrPayload) (db : Db) (out : Db × Ingredient),
      ingredient_create u p db = some out → out.2.user = u) ∧
    (∀ (u : Nat) (p : RecipeCreatePayload) (db : Db) (out : Db × Recipe),
      recipe_create u p db = some out → out.2.user = u) := by
  refine ⟨?_, ?_, ?_⟩
  · intro u p db out h
    rw [tag_create] at h
    split at h
    · exact absurd h (Option.noConfusion)
    · cases h
      rfl
  · intro u p db out h
    rw [ingredient_create] at h
    split at h
    · exact absurd h (Option.noConfusion)
    · cases h
      rfl
  · intro u p db out h
    rw [recipe_create] at h
    split at h
    · exact absurd h (Option.noConfusion)
    · cases h
      rfl

/-- Witness for C3: identity 1 creates a tag whose payload claims owner 2;
the stored tag is owned by 1. -/
theorem c3_create_sets_owner_witness :
    ∃ out : Db × Tag,
      tag_create 1 ⟨"vegan", some 2⟩ ⟨[], [], []⟩ = some out ∧
        out.2.user = 1 := by
  refine ⟨(⟨[⟨1, "vegan", 1⟩], [], []⟩, ⟨1, "vegan", 1⟩), rfl, ?_⟩
  exact c3_create_sets_owner.1 1 ⟨"vegan", some 2⟩ ⟨[], [], []⟩ _ rfl

theorem recipe_get_object_eq_none (u pk : Nat) (db : Db) :
    recipe_get_object u pk db = none ↔
      ∀ r ∈ db.recipes, r.id = pk → r.user ≠ u := by
  rw [recipe_get_object, List.find?_eq_none]
  constructor
  · intro h r hr hid hu
    have := h r ((mem_recipe_get_queryset u db r).mpr ⟨hr, hu⟩)
    simp [hid] at this
  · intro h x hx
    obtain ⟨hmem, huser⟩ := (mem_recipe_get_queryset u db x).mp hx
    intro hpx
    exact h x hmem (by simpa using hpx) huser

/-- C4: a recipe id that is not owned by the caller — whether it belongs
to someone else or does not exist at all — resolves to the 404 result
`none`, and every id-addressed operation (retrieve, update, image
upload, delete) answers with the same not-found outcome, leaving the
store untouched. -/
theorem c4_not_owned_is_not_found (u pk : Nat) (db : Db)
    (decode : UploadFile → Bool) (f : UploadFile) (patch : Bool)
    (p : RecipeUpdatePayload) :
    (recipe_get_object u pk db = none ↔
      ∀ r ∈ db.recipes, r.id = pk → r.user ≠ u) ∧
    (recipe_get_object u pk db = none →
      upload_image decode u pk f db = (db, HStatus.notFound404, none) ∧
      recipe_update u pk patch p db = (db, none) ∧
      recipe_destroy u pk db = (db, HStatus.notFound404)) := by
  refine ⟨recipe_get_object_eq_none u pk db, ?_⟩
  intro h
  refine ⟨?_, ?_, ?_⟩
  · simp [upload_image, h]
  · simp [recipe_update, h]
  · simp [recipe_destroy, h]

/-- A recipe owned by identity 2. -/
def foreignRecipe : Recipe := ⟨10, 2, "cake", 40, 2000, none, none, [], []⟩

/-- A store holding a single recipe owned by identity 2. -/
def foreignDb : Db :=
  { tags := [], ingredients := [], recipes := [foreignRecipe] }

/-- An empty update payload (every field absent). -/
def emptyPayload : RecipeUpdatePayload :=
  ⟨none, none, none, none, none, none⟩

/-- Witness for C4: identity 1 addresses recipe 10, which exists but is
owned by identity 2; retrieve, upload, update and delete all answer
not-found and the store is unchanged. -/
theorem c4_not_owned_is_not_found_witness :
    (∃ r ∈ foreignDb.recipes, r.id = 10) ∧
    upload_image (fun _ => true) 1 10 ⟨"img.jpg", [1]⟩ foreignDb =
      (foreignDb, HStatus.notFound404, none) ∧
    recipe_update 1 10 false emptyPayload foreignDb = (foreignDb, none) ∧
    recipe_destroy 1 10 foreignDb = (foreignDb, HStatus.notFound404) := by
  have h := (c4_not_owned_is_not_found 1 10 foreignDb (fun _ => true)
    ⟨"img.jpg", [1]⟩ false emptyPayload).2 (by decide)
  exact ⟨⟨foreignRecipe, by decide, rfl⟩, h.1, h.2.1, h.2.2⟩

/-- C5: every list result is ordered — tags and ingredients by name
descending, recipes by identifier descending. -/
theorem c5_default_ordering (u : Nat) (ao : Bool) (db : Db) :
    (tag_get_queryset u ao db).Pairwise (fun a b => b.name ≤ a.name) ∧
    (ingredient_get_queryset u ao db).Pairwise
      (fun a b => b.name ≤ a.name) ∧
    (recipe_get_queryset u db).Pairwise (fun a b => b.id ≤ a.id) := by
  refine ⟨?_, ?_, ?_⟩
  · have h : (tag_get_queryset u ao db).Pairwise
        (fun a b => strLe b.name a.name = true) :=
      pairwise_orderBy (fun a b : Tag => strLe b.name a.name)
        (fun a b => lexLe_total b.name.data a.name.data)
        (fun a b c hab hbc =>
          lexLe_trans c.name.data b.name.data a.name.data hbc hab)
        (db.tags.filter (fun t => t.user == u))
    exact h.imp (fun hab => (strLe_iff_le _ _).mp hab)
  · have h : (ingredient_get_queryset u ao db).Pairwise
        (fun a b => strLe b.name a.name = true) :=
      pairwise_orderBy (fun a b : Ingredient => strLe b.name a.name)
        (fun a b => lexLe_total b.name.data a.name.data)
        (fun a b c hab hbc =>
          lexLe_trans c.name.data b.name.data a.name.data hbc hab)
        (db.ingredients.filter (fun i => i.user == u))
    exact h.imp (fun hab => (strLe_iff_le _ _).mp hab)
  · have h : (recipe_get_queryset u db).Pairwise
        (fun a b => decide (b.id ≤ a.id) = true) :=
      pairwise_orderBy (fun a b : Recipe => decide (b.id ≤ a.id))
        (fun a b => by
          rcases Nat.le_total b.id a.id with h | h
          · left; simpa using h
          · right; simpa using h)
        (fun a b c hab hbc => by
          simp only [decide_eq_true_eq] at hab hbc ⊢
          omega)
        (db.recipes.filter (fun r => r.user == u))
    exact h.imp (fun hab => of_decide_eq_true hab)

/-- C6: on a recipe the caller owns, a full update (PUT) whose payload
omits the tags field leaves the stored recipe with an empty tag set,
while a partial update (PATCH) whose payload omits the tags field leaves
the tag set of the recipe unchanged. -/
theorem c6_put_clears_patch_keeps_tags (u pk : Nat) (db : Db)
    (p : RecipeUpdatePayload) (r : Recipe)
    (hr : recipe_get_object u pk db = some r) (hp : p.tags = none) :
    (recipe_update u pk false p db).2 =
      some (recipe_update_fields false p r) ∧
    (recipe_update_fields false p r).tags = [] ∧
    (recipe_update u pk true p db).2 =
      some (recipe_update_fields true p r) ∧
    (recipe_update_fields true p r).tags = r.tags := by
  refine ⟨?_, ?_, ?_, ?_⟩
  · simp [recipe_update, hr]
  · simp [recipe_update_fields, hp]
  · simp [recipe_update, hr]
  · simp [recipe_update_fields, hp]

/-- The recipe of the PUT/PATCH tests: owned by identity 1 and carrying
tag 5 before the update. -/
def putPatchRecipe : Recipe := ⟨10, 1, "bread", 50, 500, none, none, [5], []⟩

/-- The store of the PUT/PATCH tests. -/
def putPatchDb : Db :=
  { tags := [⟨5, "Main course", 1⟩], ingredients := []
    recipes := [putPatchRecipe] }

/-- Witness for C6: PUT with no tags field leaves recipe 10 with no
tags; PATCH with no tags field keeps tag 5. -/
theorem c6_put_clears_patch_keeps_tags_witness :
    (recipe_update_fields false emptyPayload putPatchRecipe).tags = [] ∧
    (recipe_update_fields true emptyPayload putPatchRecipe).tags = [5] :=
  have h := c6_put_clears_patch_keeps_tags 1 10 putPatchDb emptyPayload
    putPatchRecipe (by decide) rfl
  ⟨h.2.1, h.2.2.2⟩

/-- C7: image upload on an owned recipe with a file the codec cannot
decode answers 400 and leaves the store — the stored image included —
unchanged; with a decodable file it answers 200, stores the new image
reference over any previous one, and returns the recipe carrying it. -/
theorem c7_upload_image_validation (decode : UploadFile → Bool)
    (u pk : Nat) (f : UploadFile) (db : Db) (r : Recipe)
    (hr : recipe_get_object u pk db = some r) :
    (decode f = false →
      upload_image decode u pk f db = (db, HStatus.badRequest400, none)) ∧
    (decode f = true →
      (upload_image decode u pk f db).2.1 = HStatus.ok200 ∧
      (upload_image decode u pk f db).2.2 =
        some { r with image := some f.name } ∧
      ∀ x ∈ (upload_image decode u pk f db).1.recipes,
        x.id = pk → x.user = u → x.image = some f.name) := by
  constructor
  · intro hd
    simp [upload_image, hr, hd]
  · intro hd
    have hrw : upload_image decode u pk f db =
        ({ db with recipes := (db.recipes.map (fun x =>
            if x.id == pk && x.user == u then
              { r with image := some f.name } else x)) },
          HStatus.ok200, some { r with image := some f.name }) := by
      simp [upload_image, hr, hd]
    rw [hrw]
    refine ⟨rfl, rfl, ?_⟩
    intro x hx hid huser
    rcases List.mem_map.mp hx with ⟨y, hy, hxy⟩
    by_cases hc : (y.id == pk && y.user == u) = true
    · rw [if_pos hc] at hxy
      rw [← hxy]
    · rw [if_neg hc] at hxy
      subst hxy
      exact absurd (by simp [hid, huser]) hc

/-- The external image codec capability of the witness: a file decodes
exactly when it has bytes. -/
def hasBytes : UploadFile → Bool := fun f => !f.bytes.isEmpty

/-- The store of the image-upload tests: recipe 10, owned by identity 1,
already carries an image. -/
def imgRecipe : Recipe :=
  ⟨10, 1, "bread", 50, 500, none, some "old.png", [], []⟩

def imgDb : Db := { tags := [], ingredients := [], recipes := [imgRecipe] }

/-- Witness for C7: the empty file is rejected with 400 and the store is
untouched; the nonempty file is accepted with 200 and the recipe now
references it. -/
theorem c7_upload_image_validation_witness :
    upload_image hasBytes 1 10 ⟨"bad.txt", []⟩ imgDb =
      (imgDb, HStatus.badRequest400, none) ∧
    (upload_image hasBytes 1 10 ⟨"new.jpg", [7]⟩ imgDb).2.1 =
      HStatus.ok200 ∧
    (upload_image hasBytes 1 10 ⟨"new.jpg", [7]⟩ imgDb).2.2 =
      some { imgRecipe with image := some "new.jpg" } :=
  have hb := c7_upload_image_validation hasBytes 1 10 ⟨"bad.txt", []⟩
    imgDb imgRecipe (by decide)
  have hg := c7_upload_image_validation hasBytes 1 10 ⟨"new.jpg", [7]⟩
    imgDb imgRecipe (by decide)
  ⟨hb.1 rfl, (hg.2 rfl).1, (hg.2 rfl).2.1⟩

/-- C8 (counterexample): the claim needs retrieve, update and delete by
id on every resource kind, but the tag viewset is built from only the
list and create mixins — the retrieve action does not exist for tags
(nor, identically, for ingredients). -/
theorem c8_counterexample :
    ¬ (RAction.retrieve ∈ tagViewSetActions ∧
       RAction.update ∈ tagViewSetActions ∧
       RAction.destroy ∈ tagViewSetActions) := by
  decide

/-- C8 (amended): the full id-addressed contract exists only for
recipes; tags and ingredients expose exactly list and create.  Deleting
a recipe removes the row — and with it its tag/ingredient links — while
the tag and ingredient tables are untouched and every surviving recipe
was already in the store. -/
theorem c8_amended_actions :
    tagViewSetActions = [RAction.list, RAction.create] ∧
    ingredientViewSetActions = [RAction.list, RAction.create] ∧
    recipeViewSetActions =
      [RAction.list, RAction.create, RAction.retrieve, RAction.update,
       RAction.patch, RAction.destroy, RAction.uploadImage] ∧
    (∀ (u pk : Nat) (db : Db),
      (recipe_destroy u pk db).1.tags = db.tags ∧
      (recipe_destroy u pk db).1.ingredients = db.ingredients ∧
      ∀ x ∈ (recipe_destroy u pk db).1.recipes,
        x ∈ db.recipes ∧ ¬(x.id = pk ∧ x.user = u)) := by
  refine ⟨rfl, rfl, rfl, ?_⟩
  intro u pk db
  rw [recipe_destroy]
  cases h : recipe_get_object u pk db with
  | none =>
    refine ⟨rfl, rfl, ?_⟩
    intro x hx
    refine ⟨hx, ?_⟩
    rintro ⟨h1, h2⟩
    exact (recipe_get_object_eq_none u pk db).mp h x hx h1 h2
  | some r =>
    refine ⟨rfl, rfl, ?_⟩
    intro x hx
    rcases List.mem_filter.mp hx with ⟨hmem, hcond⟩
    refine ⟨hmem, ?_⟩
    rintro ⟨h1, h2⟩
    simp [h1, h2] at hcond

/-- Witness for C8 (amended): identity 1 deletes recipe 10, which is
owned by identity 2; the tag table is untouched and the surviving
recipe row was already stored and is not an owned match of the
request. -/
theorem c8_amended_actions_witness :
    (recipe_destroy 1 10 foreignDb).1.tags = foreignDb.tags ∧
    (foreignRecipe ∈ foreignDb.recipes ∧
      ¬(foreignRecipe.id = 10 ∧ foreignRecipe.user = 1)) :=
  have h := c8_amended_actions.2.2.2 1 10 foreignDb
  ⟨h.1, h.2.2 foreignRecipe (by decide)⟩

/-- C9 (counterexample): the claim says GET, PUT and PATCH on the recipe
detail route all answer with the nested detail representation, but
`get_serializer_class` hands the update and patch actions the plain
serializer. -/
theorem c9_counterexample :
    ¬ (recipe_get_serializer_class RAction.retrieve = SerKind.detail ∧
       recipe_get_serializer_class RAction.update = SerKind.detail ∧
       recipe_get_serializer_class RAction.patch = SerKind.detail) := by
  decide

/-- C9 (amended): only GET (retrieve) uses the detail serializer with
nested tag/ingredient objects; PUT and PATCH use the plain serializer
whose tags and ingredients are the bare id lists of the row, while
every nested tag of the detail representation is a full object resolved
from the store at an id the recipe references. -/
theorem c9_amended_serializers :
    recipe_get_serializer_class RAction.retrieve = SerKind.detail ∧
    recipe_get_serializer_class RAction.update = SerKind.plain ∧
    recipe_get_serializer_class RAction.patch = SerKind.plain ∧
    (∀ r : Recipe, (serializeRecipe r).tags = r.tags ∧
      (serializeRecipe r).ingredients = r.ingredients) ∧
    (∀ (db : Db) (r : Recipe) (tr : TagRepr),
      tr ∈ (serializeRecipeDetail db r).tags →
      ∃ t ∈ db.tags, t.id = tr.id ∧ t.name = tr.name ∧ tr.id ∈ r.tags) := by
  refine ⟨rfl, rfl, rfl, fun r => ⟨rfl, rfl⟩, ?_⟩
  intro db r tr htr
  rcases List.mem_filterMap.mp htr with ⟨i, hi, hf⟩
  rcases Option.map_eq_some'.mp hf with ⟨t, hfind, hser⟩
  have hmem : t ∈ db.tags := List.mem_of_find?_eq_some hfind
  have hid : t.id = i := by
    have := List.find?_some hfind
    simpa using this
  refine ⟨t, hmem, ?_, ?_, ?_⟩
  · rw [← hser]
    rfl
  · rw [← hser]
    rfl
  · rw [← hser]
    simpa [serializeTag, hid] using hi

/-- The store of the detail-representation witness: recipe 10 owned by
identity 1 referencing tag 5. -/
def detailDb : Db :=
  { tags := [⟨5, "Main course", 1⟩], ingredients := []
    recipes := [⟨10, 1, "bread", 50, 500, none, none, [5], []⟩] }

/-- Witness for C9 (amended): in `detailDb` the nested tag ⟨5, "Main
course"⟩ of the detail representation of recipe 10 resolves to a stored
tag whose id the recipe references. -/
theorem c9_amended_serializers_witness :
    recipe_get_serializer_class RAction.update = SerKind.plain ∧
    ∃ t ∈ detailDb.tags, t.id = 5 ∧ t.name = "Main course" ∧
      (5 : Nat) ∈ (⟨10, 1, "bread", 50, 500, none, none, [5], []⟩ : Recipe).tags :=
  ⟨c9_amended_serializers.2.1,
    c9_amended_serializers.2.2.2.2 detailDb
      ⟨10, 1, "bread", 50, 500, none, none, [5], []⟩
      ⟨5, "Main course"⟩ (by decide)⟩

/-- The recipe of the noninterference counterexample: owned by identity
1 and referencing tag 5, which identity 1 does not own. -/
def hyperRecipe : Recipe := ⟨10, 1, "toast", 1, 100, none, none, [5], []⟩

/-- First store: tag 5 is owned by identity 2 and named x. -/
def hyperDbX : Db :=
  { tags := [⟨5, "x", 2⟩], ingredients := [], recipes := [hyperRecipe] }

/-- Second store: identical for identity 1, but tag 5 of identity 2 is
named y. -/
def hyperDbY : Db :=
  { tags := [⟨5, "y", 2⟩], ingredients := [], recipes := [hyperRecipe] }

/-- C10 (counterexample): the two stores agree on every resource owned
by identity 1, yet the retrieve response for recipe 10 of identity 1
differs between them, because the detail representation nests tag 5 of identity
2, whose name differs. -/
theorem c10_counterexample :
    hyperDbX.tags.filter (fun t => t.user == 1) =
      hyperDbY.tags.filter (fun t => t.user == 1) ∧
    hyperDbX.ingredients.filter (fun i => i.user == 1) =
      hyperDbY.ingredients.filter (fun i => i.user == 1) ∧
    hyperDbX.recipes.filter (fun r => r.user == 1) =
      hyperDbY.recipes.filter (fun r => r.user == 1) ∧
    retrieve_recipe_resp 1 10 hyperDbX ≠ retrieve_recipe_resp 1 10 hyperDbY := by
  decide

/-- C10 (amended): every list and retrieve response for identity `u` is
a function of the identity `u`, the rows `u` owns, and the resolution
of the tag/ingredient ids referenced by the recipes of `u`: two stores that agree on
those produce identical responses, no matter how the rest differs. -/
theorem c10_amended_noninterference (u pk : Nat) (ao : Bool) (db1 db2 : Db)
    (htags : db1.tags.filter (fun t => t.user == u) =
      db2.tags.filter (fun t => t.user == u))
    (hing : db1.ingredients.filter (fun i => i.user == u) =
      db2.ingredients.filter (fun i => i.user == u))
    (hrec : db1.recipes.filter (fun r => r.user == u) =
      db2.recipes.filter (fun r => r.user == u))
    (htref : ∀ (i : Nat) (r : Recipe), r ∈ db1.recipes → r.user = u →
      i ∈ r.tags →
      db1.tags.find? (fun t => t.id == i) =
        db2.tags.find? (fun t => t.id == i))
    (hiref : ∀ (j : Nat) (r : Recipe), r ∈ db1.recipes → r.user = u →
      j ∈ r.ingredients →
      db1.ingredients.find? (fun i => i.id == j) =
        db2.ingredients.find? (fun i => i.id == j)) :
    list_tags_resp u ao db1 = list_tags_resp u ao db2 ∧
    list_ingredients_resp u ao db1 = list_ingredients_resp u ao db2 ∧
    list_recipes_resp u db1 = list_recipes_resp u db2 ∧
    retrieve_recipe_resp u pk db1 = retrieve_recipe_resp u pk db2 := by
  have hq : recipe_get_queryset u db1 = recipe_get_queryset u db2 := by
    simp only [recipe_get_queryset, hrec]
  have hobj : recipe_get_object u pk db1 = recipe_get_object u pk db2 := by
    simp only [recipe_get_object, hq]
  refine ⟨?_, ?_, ?_, ?_⟩
  · simp only [list_tags_resp, tag_get_queryset, htags]
  · simp only [list_ingredients_resp, ingredient_get_queryset, hing]
  · simp only [list_recipes_resp, hq]
  · rw [retrieve_recipe_resp, retrieve_recipe_resp, ← hobj]
    cases h : recipe_get_object u pk db1 with
    | none => rfl
    | some r =>
      have hrket : r ∈ recipe_get_queryset u db1 := by
        rw [recipe_get_object] at h
        exact List.mem_of_find?_eq_some h
      obtain ⟨hrmem, hruser⟩ := (mem_recipe_get_queryset u db1 r).mp hrket
      simp only [Option.map_some']
      congr 1
      rw [serializeRecipeDetail, serializeRecipeDetail]
      congr 1
      · exact List.filterMap_congr
          (fun i hi => by rw [htref i r hrmem hruser hi])
      · exact List.filterMap_congr
          (fun j hj => by rw [hiref j r hrmem hruser hj])

/-- The second store of the noninterference witness: `putPatchDb` with
an extra tag owned by identity 7 that the recipe of identity 1 never
references. -/
def unrelatedTagDb : Db :=
  { putPatchDb with tags := putPatchDb.tags ++ [⟨99, "zest", 7⟩] }

/-- Witness for C10 (amended): `putPatchDb` and `unrelatedTagDb` agree
on the rows of identity 1 and on the resolution of tag 5, the only id recipe
10 references, so all responses of identity 1 coincide. -/
theorem c10_amended_noninterference_witness :
    list_tags_resp 1 false putPatchDb = list_tags_resp 1 false unrelatedTagDb ∧
    list_ingredients_resp 1 false putPatchDb =
      list_ingredients_resp 1 false unrelatedTagDb ∧
    list_recipes_resp 1 putPatchDb = list_recipes_resp 1 unrelatedTagDb ∧
    retrieve_recipe_resp 1 10 putPatchDb =
      retrieve_recipe_resp 1 10 unrelatedTagDb :=
  c10_amended_noninterference 1 10 false putPatchDb unrelatedTagDb
    (by decide) (by decide) (by decide)
    (fun i r hr hu hi => by
      have hr2 : r = putPatchRecipe := List.mem_singleton.mp hr
      subst hr2
      have hi2 : i = 5 := List.mem_singleton.mp hi
      subst hi2
      decide)
    (fun j r hr hu hj => by
      have hr2 : r = putPatchRecipe := List.mem_singleton.mp hr
      subst hr2
      simp [putPatchRecipe] at hj)

end RecipeApp
